import Mathlib

/-!
Verification of the edutask front-end fragment.

This file gives a shallow embedding of the two components under `src/`:

* `src/src/app/shared/rss-feed/rss.component.ts` (`RSSComponent`):
  `formulateRoute`, `addLinks`, `ngOnInit` head-tag registration and
  `ngOnDestroy` head-tag removal.
* `src/src/app/+admin/admin-access-control/group-registry/groups-registry.component.ts`
  (`GroupsRegistryComponent`): `search`, `deleteGroup`, `forceUpdateGroup`,
  `cleanupSubscribes`, and the `combineLatest`-based DTO derivation pipeline.

Strings are Lean `String`s; JavaScript string truthiness (`if (s)`) is
modelled as non-emptiness, and nullable values as `Option`.  Observables
are modelled by explicit event schedules (for the `combineLatest` join)
and by an explicit subscription-lifecycle state machine (for teardown).
-/

namespace EduTask

/-! ## Data model -/

/-- `PageInfo` paging metadata (spec section 3). -/
structure PageInfo where
  currentPage : Nat
  pageSize : Nat
  totalElements : Nat
deriving DecidableEq, Repr, Inhabited

/-- `PaginatedList<T>`: page metadata plus the current page of entities. -/
structure PaginatedList (α : Type) where
  pageInfo : PageInfo
  page : List α
deriving DecidableEq, Repr, Inhabited

/-- The fields of the `Group` eperson model that the two components read:
`id` (nullable), `name`, and the `self` link used for authorization checks. -/
structure Group where
  id : Option String
  name : String
  self : String
deriving DecidableEq, Repr, Inhabited

/-- `GroupDtoModel`: a `Group` together with the `ableToDelete` flag. -/
structure GroupDtoModel where
  ableToDelete : Bool
  group : Group
deriving DecidableEq, Repr, Inhabited

/-- `hasValue` from `empty.util`: the value is neither `null` nor `undefined`. -/
def hasValue (o : Option String) : Bool := o.isSome

/-! ## RSS component: route construction (`rss.component.ts`, lines 97-112) -/

/-- `SortOptions` as consumed by `formulateRoute`: a sort field and a direction. -/
structure SortOptions where
  field : String
  direction : String
deriving DecidableEq, Repr, Inhabited

/-- JavaScript truthiness of a string: non-empty. -/
def strTruthy (s : String) : Bool := s != ""

/-- JavaScript truthiness of a nullable string: non-null and non-empty. -/
def optTruthy (o : Option String) : Bool :=
  match o with
  | some s => strTruthy s
  | none => false

/-- Template interpolation of a nullable string (only reached under a truthiness guard). -/
def optStr (o : Option String) : String := o.getD ""

/-- `RSSComponent.formulateRoute`: builds the opensearch route from a scope uuid,
the opensearch service context, the sort options and the query string. -/
def formulateRoute (uuid : Option String) (opensearch : String) (sort : SortOptions)
    (query : String) : String :=
  let route1 := "search?format=atom"
  let route2 := if optTruthy uuid then route1 ++ "&scope=" ++ optStr uuid else route1
  let route3 :=
    if strTruthy sort.direction && strTruthy sort.field then
      route2 ++ "&sort=" ++ sort.field ++ "&sort_direction=" ++ sort.direction
    else route2
  let route4 := if strTruthy query then route3 ++ "&query=" ++ query else route3 ++ "&query=*"
  "/" ++ opensearch ++ "/" ++ route4

/-- The optional scope segment of the route template in spec section 6. -/
def scopeSegment (uuid : Option String) : String :=
  if optTruthy uuid then "&scope=" ++ optStr uuid else ""

/-- The optional sort segment of the route template in spec section 6. -/
def sortSegment (sort : SortOptions) : String :=
  if strTruthy sort.direction && strTruthy sort.field then
    "&sort=" ++ sort.field ++ "&sort_direction=" ++ sort.direction
  else ""

/-- The query segment of the route template in spec section 6: the query itself,
defaulting to the literal `*` when the query is empty. -/
def querySegment (query : String) : String :=
  if strTruthy query then "&query=" ++ query else "&query=*"

/-- The route template exactly as the spec states it:
`/<service>/search?format=atom[&scope=<id>][&sort=<field>&sort_direction=<dir>]&query=<q|*>`. -/
def routeSpec (uuid : Option String) (opensearch : String) (sort : SortOptions)
    (query : String) : String :=
  "/" ++ opensearch ++ "/search?format=atom" ++ scopeSegment uuid ++ sortSegment sort ++
    querySegment query

/-! ### String helper lemmas -/

/-! ## RSS component: link tags (`rss.component.ts`, lines 118-132) -/

/-- The fields of a head link tag passed to `LinkHeadService.addTag`. -/
structure LinkTag where
  href : String
  type : String
  rel : String
  title : String
deriving DecidableEq, Repr, Inhabited

/-- JavaScript `String.prototype.replace` with a string pattern, on character lists:
replaces the leftmost occurrence of `pat` (if any) with `repl`. -/
def replaceFirstL (pat repl : List Char) : List Char → List Char
  | [] => []
  | c :: rest =>
    if pat.isPrefixOf (c :: rest) then repl ++ (c :: rest).drop pat.length
    else c :: replaceFirstL pat repl rest

/-- JavaScript `route.replace(pat, repl)` for string arguments. -/
def replaceFirst (s pat repl : String) : String :=
  ⟨replaceFirstL pat.data repl.data s.data⟩

/-- `RSSComponent.addLinks`: the two alternate link tags registered for a route,
in registration order (Atom first, then the RSS variant obtained by
`route.replace(format=atom, format=rss)`). -/
def addLinks (route : String) : List LinkTag :=
  [ { href := route, type := "application/atom+xml", rel := "alternate",
      title := "Sitewide Atom feed" },
    { href := replaceFirst route "format=atom" "format=rss", type := "application/rss+xml",
      rel := "alternate", title := "Sitewide RSS feed" } ]

/-! ## RSS component: head-tag lifecycle (`rss.component.ts`, lines 51-53 and 59-87) -/

/-- The selector passed to `LinkHeadService.removeTag` in `ngOnDestroy`:
it matches link tags whose `rel` attribute is `alternate`. -/
inductive Selector
  | relAlternate
deriving DecidableEq, Repr

/-- Modelled from the spec: `LinkHeadService` (not under `src/`) maintains document-level
link metadata; a selector matches exactly the head tags carrying the selected attribute. -/
def matchesSelector : Selector → LinkTag → Bool
  | Selector.relAlternate, tag => tag.rel == "alternate"

/-- Modelled from the spec: `LinkHeadService.addTag` (not under `src/`) appends a link
tag to the document head. -/
def addTag (head : List LinkTag) (tag : LinkTag) : List LinkTag := head ++ [tag]

/-- Modelled from the spec: `LinkHeadService.removeTag` (not under `src/`) removes from
the document head exactly the tags matching the given selector. -/
def removeTag (sel : Selector) (head : List LinkTag) : List LinkTag :=
  head.filter (fun t => !(matchesSelector sel t))

/-- The opensearch service-description tag added by `ngOnInit` (rel `search`). -/
def openSearchServiceTag (baseUrl svcValue : String) : LinkTag :=
  { href := baseUrl ++ "/" ++ svcValue ++ "/service", type := "application/atom+xml",
    rel := "search", title := "Dspace" }

/-- `addLinks` acting on the document head: registers its two tags in order. -/
def addLinksHead (head : List LinkTag) (route : String) : List LinkTag :=
  (addLinks route).foldl addTag head

/-- The document head after `ngOnInit` runs on `head0`: the two alternate feed tags
from `addLinks`, then the rel-`search` service tag. -/
def ngOnInitHead (head0 : List LinkTag) (route : String) (baseUrl svcValue : String) :
    List LinkTag :=
  addTag (addLinksHead head0 route) (openSearchServiceTag baseUrl svcValue)

/-- The document head after `ngOnDestroy`: all rel-`alternate` tags removed. -/
def ngOnDestroyHead (head : List LinkTag) : List LinkTag :=
  removeTag Selector.relAlternate head


/-! ## Groups registry: the `combineLatest` DTO derivation (lines 118-136)

The derivation pipeline maps every group of a fetched page to an authorization
query and joins the per-group results with `combineLatest`.  `combineLatest` is
modelled operationally: each per-group observable is a slot, a completion
schedule lists the slots in the order in which the authorization queries
complete, and the join emits (the slot values in slot order) only once every
slot is filled. -/

/-- The per-group map on lines 123-128: wrap the group and its authorization
result into a `GroupDtoModel`. -/
def isAuthorizedDto (auth : Group → Bool) (group : Group) : GroupDtoModel :=
  { ableToDelete := auth group, group := group }

/-- Deliver a schedule of completion events `(slot index, value)` into the slots. -/
def runEvents {α : Type} (slots : List (Option α)) (events : List (Nat × α)) :
    List (Option α) :=
  events.foldl (fun s e => s.set e.1 (some e.2)) slots

/-- The first `combineLatest` emission: the slot values in slot order once all
slots are filled, nothing before that. -/
def firstEmission {α : Type} (slots : List (Option α)) : Option (List α) :=
  if slots.all Option.isSome then some (slots.filterMap id) else none

/-- The completion events of the per-group authorization queries, in completion
order `order`; the event for slot `i` carries the DTO derived for the `i`-th group. -/
def deriveEvents (auth : Group → Bool) (page : List Group) (order : List Nat) :
    List (Nat × GroupDtoModel) :=
  order.map (fun i => (i, isAuthorizedDto auth (page.getD i default)))

/-- The derivation step of `search` (lines 118-136) under completion order `order`:
the joined DTO list wrapped with the input page metadata (line 131), or `none` when
the join has not yet emitted. -/
def searchDerivation (auth : Group → Bool) (groups : PaginatedList Group)
    (order : List Nat) : Option (PaginatedList GroupDtoModel) :=
  (firstEmission (runEvents (List.replicate groups.page.length none)
      (deriveEvents auth groups.page order))).map
    (fun dtos => { pageInfo := groups.pageInfo, page := dtos })

/-- A concrete two-group page used to witness C1. -/
def samplePage : PaginatedList Group :=
  { pageInfo := { currentPage := 1, pageSize := 5, totalElements := 2 },
    page := [{ id := some "a", name := "alpha", self := "sa" },
      { id := some "b", name := "beta", self := "sb" }] }

/-- A concrete authorization oracle used to witness C1. -/
def sampleAuth : Group → Bool := fun g => g.name == "alpha"

/-! ## Groups registry component (`groups-registry.component.ts`) -/

/-- The component state read and written by `search`/`deleteGroup`/`forceUpdateGroup`:
the stored query and the pagination config (`config.currentPage`, `config.pageSize`). -/
structure ComponentState where
  currentSearchQuery : String
  currentPage : Nat
  pageSize : Nat
deriving DecidableEq, Repr, Inhabited

/-- The argument object passed to `GroupDataService.searchGroups`. -/
structure FetchRequest where
  query : String
  currentPage : Nat
  elementsPerPage : Nat
deriving DecidableEq, Repr, Inhabited

/-- The externally visible effects the component issues, in program order. -/
inductive Effect
  | navigateToGroupRegistry
  | fetch (req : FetchRequest)
  | clearGroupsRequests
  | deleteRequest (group : Group)
  | notifySuccess (key : String) (name : String)
  | notifyError (titleKey contentKey : String) (name cause : String)
deriving DecidableEq, Repr

/-- `this.messagePrefix` (line 34). -/
def messagePrefix : String := "admin.access-control.groups."

/-- The guard on line 104: `query != null && this.currentSearchQuery !== query`. -/
def queryChanged (st : ComponentState) (data : Option String) : Bool :=
  match data with
  | some q => st.currentSearchQuery != q
  | none => false

/-- The state mutation performed by `search` (lines 104-108). -/
def searchTransition (st : ComponentState) (data : Option String) : ComponentState :=
  match data with
  | some q =>
    if st.currentSearchQuery != q then { st with currentSearchQuery := q, currentPage := 1 }
    else st
  | none => st

/-- The `searchGroups` call argument built on lines 109-111: the trimmed stored query
with the current pagination config. -/
def searchGroupsRequest (st : ComponentState) : FetchRequest :=
  { query := st.currentSearchQuery.trim, currentPage := st.currentPage, elementsPerPage := st.pageSize }

/-- `GroupsRegistryComponent.search` (lines 102-116): on a changed non-null query it
navigates to the registry route, stores the query and resets the page to 1; it then
issues `searchGroups` with the trimmed stored query and the current pagination config. -/
def search (st : ComponentState) (data : Option String) : ComponentState × List Effect :=
  let st2 := searchTransition st data
  (st2,
    (if queryChanged st data then [Effect.navigateToGroupRegistry] else []) ++
      [Effect.fetch (searchGroupsRequest st2)])

/-- `GroupsRegistryComponent.forceUpdateGroup` (lines 161-164): clear the cached group
requests, then search again with the stored query. -/
def forceUpdateGroup (st : ComponentState) : ComponentState × List Effect :=
  let res := search st (some st.currentSearchQuery)
  (res.1, Effect.clearGroupsRequests :: res.2)

/-- `GroupsRegistryComponent.deleteGroup` (lines 142-156), together with the backend
response `[success, optionalErrorMessage]` delivered to its single subscription. -/
def deleteGroup (st : ComponentState) (group : Group) (response : Bool × String) :
    ComponentState × List Effect :=
  if hasValue group.id then
    if response.1 then
      let res := forceUpdateGroup st
      (res.1,
        Effect.deleteRequest group ::
          Effect.notifySuccess (messagePrefix ++ "notification.deleted.success") group.name ::
            res.2)
    else
      (st,
        [Effect.deleteRequest group,
          Effect.notifyError (messagePrefix ++ "notification.deleted.failure.title")
            (messagePrefix ++ "notification.deleted.failure.content") group.name response.2])
  else (st, [])

/-- The fetches contained in an effect list, in order. -/
def fetchesOf (effects : List Effect) : List FetchRequest :=
  effects.filterMap (fun e =>
    match e with
    | Effect.fetch req => some req
    | _ => none)

/-- The delete requests contained in an effect list, in order. -/
def deletesOf (effects : List Effect) : List Group :=
  effects.filterMap (fun e =>
    match e with
    | Effect.deleteRequest g => some g
    | _ => none)

/-- Modelled from the spec: `GroupDataService` (not under `src/`) caches group search
requests; a fetch whose request is already cached is answered from the cache without a
backend call, a fresh fetch is answered by the backend and cached, and
`clearGroupsRequests` invalidates every cached group request.  Returns the final cache
and the list of backend calls made. -/
def runCache (cache : List FetchRequest) : List Effect → List FetchRequest × List FetchRequest
  | [] => (cache, [])
  | e :: rest =>
    match e with
    | Effect.clearGroupsRequests => runCache [] rest
    | Effect.fetch req =>
      if req ∈ cache then runCache cache rest
      else
        let res := runCache (req :: cache) rest
        (res.1, req :: res.2)
    | _ => runCache cache rest

/-! ## Groups registry: subscription lifecycle and teardown (lines 69, 109, 118, 142-156, 204-210)

`search` pushes its two subscriptions onto `this.subs` (lines 109 and 118);
`deleteGroup` subscribes without registering anywhere (line 144);
`cleanupSubscribes` unsubscribes exactly the subscriptions held in `this.subs`
(lines 208-210).  The lifecycle is modelled as a state machine whose events are
the component entry points plus asynchronous result deliveries; mutations of the
cached list state (`groups\u0024.next`, `groupsDto\u0024.next`, `pageInfoState\u0024.next`)
occurring after `ngOnDestroy` are counted. -/

/-- The kinds of subscriptions the component opens. -/
inductive SubKind
  | fetchSub
  | deriveSub
  | deleteSub (group : Group)
deriving DecidableEq, Repr

/-- The asynchronous results a subscription can receive. -/
inductive Msg
  | fetchResult
  | deriveResult
  | deleteResult (success : Bool) (errorMessage : String)
deriving DecidableEq, Repr

/-- Lifecycle state: the component state, the next fresh subscription id, the ids held
in `this.subs`, the currently alive subscriptions, the count of cached-list-state
mutations performed after destruction, and the destroyed flag. -/
structure World where
  comp : ComponentState
  nextId : Nat
  tracked : List Nat
  alive : List (Nat × SubKind)
  mutationsAfterDestroy : Nat
  destroyed : Bool
deriving DecidableEq, Repr

/-- The component as constructed (line 79 and the pagination config of lines 39-43). -/
def initialWorld : World :=
  { comp := { currentSearchQuery := "", currentPage := 1, pageSize := 5 },
    nextId := 0, tracked := [], alive := [], mutationsAfterDestroy := 0, destroyed := false }

/-- A mutation of the cached list state; counted when the view is already destroyed. -/
def recordMutation (w : World) : World :=
  if w.destroyed then { w with mutationsAfterDestroy := w.mutationsAfterDestroy + 1 } else w

/-- `search` as a lifecycle step: updates the component state (lines 104-108) and pushes
its two subscriptions onto `this.subs` (lines 109 and 118). -/
def searchStep (w : World) (data : Option String) : World :=
  { w with
    comp := searchTransition w.comp data,
    nextId := w.nextId + 2,
    tracked := w.tracked ++ [w.nextId, w.nextId + 1],
    alive := w.alive ++ [(w.nextId, SubKind.fetchSub), (w.nextId + 1, SubKind.deriveSub)] }

/-- `deleteGroup` as a lifecycle step (lines 142-144): when the group has an id, its
subscription is opened but never pushed onto `this.subs`. -/
def deleteStep (w : World) (group : Group) : World :=
  if hasValue group.id then
    { w with
      nextId := w.nextId + 1,
      alive := w.alive ++ [(w.nextId, SubKind.deleteSub group)] }
  else w

/-- `ngOnDestroy`/`cleanupSubscribes` (lines 204-210): unsubscribe every subscription
held in `this.subs`; untracked subscriptions stay alive. -/
def destroyStep (w : World) : World :=
  { w with
    alive := w.alive.filter (fun p => !(decide (p.1 ∈ w.tracked))),
    destroyed := true }

/-- Delivery of an asynchronous result to subscription `sid`, if it is still alive.
A fetch result mutates the cached list state (lines 112-115), a derivation result
likewise (lines 133-136); a delete response completes its `take(1)` subscription and on
success runs `forceUpdateGroup`, that is a fresh `search` (lines 145-154). -/
def deliverStep (w : World) (sid : Nat) (msg : Msg) : World :=
  match w.alive.find? (fun q => q.1 == sid) with
  | none => w
  | some pk =>
    match pk.2, msg with
    | SubKind.fetchSub, Msg.fetchResult => recordMutation w
    | SubKind.deriveSub, Msg.deriveResult => recordMutation w
    | SubKind.deleteSub _, Msg.deleteResult success _ =>
      let w2 := { w with alive := w.alive.filter (fun q => !(q.1 == sid)) }
      if success then searchStep w2 (some w2.comp.currentSearchQuery) else w2
    | _, _ => w

/-- The lifecycle events: the component entry points and asynchronous deliveries. -/
inductive Ev
  | searchCall (query : Option String)
  | deleteCall (group : Group)
  | destroyCall
  | deliverCall (sid : Nat) (msg : Msg)
deriving DecidableEq, Repr

def step (w : World) : Ev → World
  | Ev.searchCall q => searchStep w q
  | Ev.deleteCall g => deleteStep w g
  | Ev.destroyCall => destroyStep w
  | Ev.deliverCall sid msg => deliverStep w sid msg

/-- Run a lifecycle trace from the freshly constructed component. -/
def runTrace (events : List Ev) : World := events.foldl step initialWorld

/-- Every alive fetch or derivation subscription is held in `this.subs`. -/
def searchSubsTracked (w : World) : Prop :=
  ∀ p ∈ w.alive, (p.2 = SubKind.fetchSub ∨ p.2 = SubKind.deriveSub) → p.1 ∈ w.tracked

/-! ## Theorems -/

theorem data_empty : ("" : String).data = [] := rfl

theorem data_slash_search :
    ("/search?format=atom" : String).data = ("/" : String).data ++ ("search?format=atom" : String).data := by
  decide

/-- Claim C3: `formulateRoute` with uuid `abc`, service `svc`, sort field `score`,
direction `desc` and empty query returns exactly
`/svc/search?format=atom&scope=abc&sort=score&sort_direction=desc&query=*`. -/
theorem c3_formulateRoute_example :
    formulateRoute (some "abc") "svc" ⟨"score", "desc"⟩ "" =
      "/svc/search?format=atom&scope=abc&sort=score&sort_direction=desc&query=*" := by
  decide

/-- `formulateRoute` agrees with the spec route template everywhere (shared helper). -/
theorem formulateRoute_template (uuid : Option String) (opensearch : String)
    (sort : SortOptions) (query : String) :
    formulateRoute uuid opensearch sort query = routeSpec uuid opensearch sort query := by
  apply String.ext
  simp only [formulateRoute, routeSpec, scopeSegment, sortSegment, querySegment]
  split_ifs <;>
    simp [String.data_append, data_slash_search, data_empty, List.append_assoc]

/-- Claim C4: for every uuid, opensearch service, sort options and query,
`formulateRoute` produces exactly the template
`/<service>/search?format=atom[&scope=<id>][&sort=<field>&sort_direction=<dir>]&query=<q|*>`:
the scope segment is present exactly when the uuid is truthy, the sort segments exactly
when field and direction are both truthy, and the query defaults to `*` when empty. -/
theorem c4_formulateRoute_shape (uuid : Option String) (opensearch : String)
    (sort : SortOptions) (query : String) :
    formulateRoute uuid opensearch sort query = routeSpec uuid opensearch sort query :=
  formulateRoute_template uuid opensearch sort query

/-- `replaceFirstL` on a list containing the (non-empty) pattern: the input splits as
`p ++ pat ++ q` around the leftmost occurrence and the output is `p ++ repl ++ q`. -/
theorem replaceFirstL_spec (pat repl : List Char) (hpat : pat ≠ []) :
    ∀ s : List Char, pat <:+: s →
      ∃ p q : List Char, s = p ++ pat ++ q ∧ replaceFirstL pat repl s = p ++ repl ++ q := by
  intro s
  induction s with
  | nil =>
    intro hinf
    exact absurd (List.eq_nil_of_infix_nil hinf) hpat
  | cons c rest ih =>
    intro hinf
    by_cases hpre : pat.isPrefixOf (c :: rest)
    · obtain ⟨t, ht⟩ := List.isPrefixOf_iff_prefix.mp hpre
      refine ⟨[], (c :: rest).drop pat.length, ?_, ?_⟩
      · rw [← ht]
        simp [List.drop_left]
      · simp [replaceFirstL, hpre]
    · have hrest : pat <:+: rest := by
        obtain ⟨u, v, huv⟩ := hinf
        match u, huv with
        | [], huv =>
          exact absurd (List.isPrefixOf_iff_prefix.mpr ⟨v, huv⟩) hpre
        | x :: u, huv =>
          have : u ++ pat ++ v = rest := by
            have := congrArg List.tail huv
            simpa using this
          exact ⟨u, v, this⟩
      obtain ⟨p, q, hs, hr⟩ := ih hrest
      refine ⟨c :: p, q, by simp [hs], ?_⟩
      simp [replaceFirstL, hpre, hr]

/-- The route registered by `ngOnInit` (`environment.rest.baseUrl + formulateRoute(...)`)
always contains `format=atom` as a substring. -/
theorem data_slash_search_split :
    ("/search?format=atom" : String).data =
      ("/search?" : String).data ++ ("format=atom" : String).data := by
  decide

theorem route_contains_format_atom (baseUrl : String) (uuid : Option String)
    (opensearch : String) (sort : SortOptions) (query : String) :
    ("format=atom" : String).data <:+: (baseUrl ++ formulateRoute uuid opensearch sort query).data := by
  rw [formulateRoute_template]
  refine ⟨baseUrl.data ++ ("/" : String).data ++ opensearch.data ++ ("/search?" : String).data,
    (scopeSegment uuid).data ++ (sortSegment sort).data ++ (querySegment query).data, ?_⟩
  simp only [routeSpec, String.data_append, data_slash_search_split, List.append_assoc,
    List.cons_append, List.nil_append]

/-- Claim C5: for every route registered by `ngOnInit`
(`environment.rest.baseUrl + formulateRoute(...)`), the pair of tags registered by
`addLinks` consists of the Atom route itself and an RSS href that is byte-identical
to the Atom route except that the substring `format=atom` is replaced by `format=rss`. -/
theorem c5_rss_variant_substring (baseUrl : String) (uuid : Option String)
    (opensearch : String) (sort : SortOptions) (query : String) :
    ∃ p q : List Char,
      (baseUrl ++ formulateRoute uuid opensearch sort query).data =
        p ++ ("format=atom" : String).data ++ q ∧
      (addLinks (baseUrl ++ formulateRoute uuid opensearch sort query)).map LinkTag.href =
        [baseUrl ++ formulateRoute uuid opensearch sort query,
          String.mk (p ++ ("format=rss" : String).data ++ q)] := by
  obtain ⟨p, q, hsplit, hrepl⟩ :=
    replaceFirstL_spec ("format=atom" : String).data ("format=rss" : String).data
      (by decide) (baseUrl ++ formulateRoute uuid opensearch sort query).data
      (route_contains_format_atom baseUrl uuid opensearch sort query)
  have h2 : replaceFirst (baseUrl ++ formulateRoute uuid opensearch sort query)
      "format=atom" "format=rss" = String.mk (p ++ ("format=rss" : String).data ++ q) :=
    congrArg String.mk hrepl
  exact ⟨p, q, hsplit, by simp [addLinks, h2]⟩

/-- Claim C9: on activation the component registers the Atom link with MIME type exactly
`application/atom+xml` and the RSS link with MIME type exactly `application/rss+xml` as
alternate links, and on teardown it removes exactly the alternate tags it registered,
leaving the rest of the head (which held no alternate tag) unchanged. -/
theorem c9_head_tags (head0 : List LinkTag) (route : String) (baseUrl svcValue : String)
    (h : ∀ t ∈ head0, matchesSelector Selector.relAlternate t = false) :
    (addLinks route).map LinkTag.type = ["application/atom+xml", "application/rss+xml"] ∧
    (∀ t ∈ addLinks route, t.rel = "alternate") ∧
    ngOnDestroyHead (ngOnInitHead head0 route baseUrl svcValue) =
      head0 ++ [openSearchServiceTag baseUrl svcValue] := by
  refine ⟨by simp [addLinks], by simp [addLinks], ?_⟩
  have hkeep : head0.filter (fun t => !(matchesSelector Selector.relAlternate t)) = head0 :=
    List.filter_eq_self.mpr (by intro a ha; simp [h a ha])
  simp [ngOnDestroyHead, ngOnInitHead, addLinksHead, addLinks, addTag, removeTag,
    openSearchServiceTag, List.filter_append, hkeep, matchesSelector]
  intro a ha
  have ha2 := h a ha
  simp [matchesSelector] at ha2
  exact ha2

/-- Witness for C9 at a concrete head holding one non-alternate tag. -/
theorem c9_head_tags_witness :
    (∀ t ∈ [({ href := "h", type := "text/css", rel := "stylesheet", title := "s" } : LinkTag)],
      matchesSelector Selector.relAlternate t = false) ∧
    ((addLinks "/svc/search?format=atom&query=*").map LinkTag.type =
        ["application/atom+xml", "application/rss+xml"] ∧
      (∀ t ∈ addLinks "/svc/search?format=atom&query=*", t.rel = "alternate") ∧
      ngOnDestroyHead (ngOnInitHead
          [{ href := "h", type := "text/css", rel := "stylesheet", title := "s" }]
          "/svc/search?format=atom&query=*" "base" "svc") =
        [{ href := "h", type := "text/css", rel := "stylesheet", title := "s" }] ++
          [openSearchServiceTag "base" "svc"]) :=
  ⟨by decide, c9_head_tags _ _ _ _ (by decide)⟩

theorem runEvents_length {α : Type} (events : List (Nat × α)) :
    ∀ slots : List (Option α), (runEvents slots events).length = slots.length := by
  induction events with
  | nil => intro slots; rfl
  | cons e rest ih =>
    intro slots
    have hstep : runEvents slots (e :: rest) = runEvents (slots.set e.1 (some e.2)) rest := rfl
    rw [hstep, ih, List.length_set]

/-- Pointwise effect of delivering events whose value is determined by their slot:
slot `j` holds `f j` exactly when some event targeted it (in bounds). -/
theorem runEvents_getElem {α : Type} (f : Nat → α) (order : List Nat) :
    ∀ (slots : List (Option α)) (j : Nat),
      (runEvents slots (order.map fun i => (i, f i)))[j]? =
        if j ∈ order ∧ j < slots.length then some (some (f j)) else slots[j]? := by
  induction order with
  | nil => intro slots j; simp [runEvents]
  | cons i rest ih =>
    intro slots j
    have hstep : runEvents slots ((i :: rest).map fun i => (i, f i)) =
        runEvents (slots.set i (some (f i))) (rest.map fun i => (i, f i)) := rfl
    rw [hstep, ih, List.length_set]
    by_cases hl : j < slots.length
    · by_cases hjr : j ∈ rest
      · rw [if_pos ⟨hjr, hl⟩, if_pos ⟨List.mem_cons_of_mem i hjr, hl⟩]
      · rw [if_neg (fun hc => hjr hc.1)]
        by_cases hij : i = j
        · subst hij
          rw [List.getElem?_set_self hl, if_pos ⟨List.mem_cons_self i rest, hl⟩]
        · rw [List.getElem?_set_ne hij, if_neg (fun hc => ?_)]
          rcases List.mem_cons.mp hc.1 with hji | hji
          · exact hij hji.symm
          · exact hjr hji
    · have h1 : ¬ (j ∈ rest ∧ j < slots.length) := fun hc => hl hc.2
      have h2 : ¬ (j ∈ i :: rest ∧ j < slots.length) := fun hc => hl hc.2
      have hnone1 : (slots.set i (some (f i)))[j]? = none :=
        List.getElem?_eq_none (by rw [List.length_set]; omega)
      have hnone2 : slots[j]? = none := List.getElem?_eq_none (by omega)
      rw [if_neg h1, if_neg h2, hnone1, hnone2]

/-- Delivering the events of a complete schedule (a permutation of the slot
indices) fills every slot with its own derivation, whatever the order was. -/
theorem runEvents_perm {α : Type} (f : Nat → α) (n : Nat) (order : List Nat)
    (h : order.Perm (List.range n)) :
    runEvents (List.replicate n none) (order.map fun i => (i, f i)) =
      (List.range n).map (fun i => some (f i)) := by
  apply List.ext_getElem?
  intro j
  rw [runEvents_getElem, List.length_replicate]
  by_cases hj : j < n
  · have hmem : j ∈ order := h.mem_iff.mpr (List.mem_range.mpr hj)
    rw [if_pos ⟨hmem, hj⟩, List.getElem?_map, List.getElem?_range hj]
    rfl
  · rw [if_neg (fun hc => hj hc.2),
      List.getElem?_eq_none (by rw [List.length_replicate]; omega),
      List.getElem?_eq_none (by rw [List.length_map, List.length_range]; omega)]

theorem filterMap_some_map {α β : Type} (f : β → α) (l : List β) :
    List.filterMap (fun b => some (f b)) l = List.map f l := by
  induction l with
  | nil => rfl
  | cons a t ih => simp [List.filterMap_cons, ih]

theorem firstEmission_map_some {α β : Type} (f : β → α) (l : List β) :
    firstEmission (l.map fun b => some (f b)) = some (l.map f) := by
  unfold firstEmission
  rw [if_pos (by simp [List.all_eq_true])]
  congr 1
  rw [List.filterMap_map]
  exact filterMap_some_map f l

theorem map_range_getD {α : Type} [Inhabited α] (l : List α) :
    (List.range l.length).map (fun i => l.getD i default) = l := by
  induction l with
  | nil => rfl
  | cons a t ih =>
    rw [List.length_cons, List.range_succ_eq_map, List.map_cons, List.map_map]
    have hcomp : ((fun i => (a :: t).getD i default) ∘ (· + 1)) =
        (fun i => t.getD i default) := by
      funext i
      simp [List.getD_cons_succ]
    rw [hcomp, ih]
    simp [List.getD_cons_zero]

theorem map_range_comp_getD {α β : Type} [Inhabited α] (g : α → β) (l : List α) :
    (List.range l.length).map (fun i => g (l.getD i default)) = l.map g := by
  have h1 : (fun i => g (l.getD i default)) = g ∘ (fun i => l.getD i default) := rfl
  rw [h1, ← List.map_map, map_range_getD]

/-- A strict prefix of a complete schedule leaves some slot unfilled, so the join
does not emit. -/
theorem runEvents_take_not_filled {α : Type} (f : Nat → α) (n : Nat) (order : List Nat)
    (k : Nat) (hk : k < n) :
    firstEmission (runEvents (List.replicate n (none : Option α))
      ((order.take k).map fun i => (i, f i))) = none := by
  have hlen : (order.take k).length ≤ k := by
    rw [List.length_take]
    omega
  have hex : ∃ j, j < n ∧ j ∉ order.take k := by
    by_contra hno
    push_neg at hno
    have hsub : (List.range n) ⊆ order.take k := fun j hj => hno j (List.mem_range.mp hj)
    have hle := (List.subperm_of_subset (List.nodup_range n) hsub).length_le
    rw [List.length_range] at hle
    omega
  obtain ⟨j, hj, hnotin⟩ := hex
  have hval : (runEvents (List.replicate n (none : Option α))
      ((order.take k).map fun i => (i, f i)))[j]? = some none := by
    rw [runEvents_getElem, if_neg (fun hc => hnotin hc.1)]
    simp [List.getElem?_replicate, hj]
  have hmem : (none : Option α) ∈ runEvents (List.replicate n (none : Option α))
      ((order.take k).map fun i => (i, f i)) := List.getElem?_mem hval
  have hall : (runEvents (List.replicate n (none : Option α))
      ((order.take k).map fun i => (i, f i))).all Option.isSome = false := by
    rw [List.all_eq_false]
    exact ⟨none, hmem, by simp⟩
  unfold firstEmission
  rw [if_neg (fun hc => Bool.false_ne_true (hall ▸ hc))]

/-- Claim C1: for every fetched page of groups and every completion order of the
per-group authorization queries, the composed DTO list emitted by the derivation
step of `search` has exactly one DTO per input group, the `i`-th DTO wrapping the
`i`-th group (output order equals input order), and nothing is emitted before all
per-group derivations have completed. -/
theorem c1_compose_order_and_join (auth : Group → Bool) (groups : PaginatedList Group)
    (order : List Nat) (h : order.Perm (List.range groups.page.length)) :
    searchDerivation auth groups order =
      some { pageInfo := groups.pageInfo, page := groups.page.map (isAuthorizedDto auth) } ∧
    ∀ k < groups.page.length, searchDerivation auth groups (order.take k) = none := by
  constructor
  · unfold searchDerivation deriveEvents
    rw [runEvents_perm (fun i => isAuthorizedDto auth (groups.page.getD i default)) _ _ h,
      firstEmission_map_some, map_range_comp_getD]
    rfl
  · intro k hk
    unfold searchDerivation deriveEvents
    rw [runEvents_take_not_filled (fun i => isAuthorizedDto auth (groups.page.getD i default))
      _ _ _ hk]
    rfl

/-- Witness for C1 at a concrete two-group page whose authorization queries complete in
reverse order. -/
theorem c1_compose_order_and_join_witness :
    ([1, 0] : List Nat).Perm (List.range samplePage.page.length) ∧
    (searchDerivation sampleAuth samplePage [1, 0] =
      some { pageInfo := samplePage.pageInfo, page := samplePage.page.map (isAuthorizedDto sampleAuth) } ∧
    ∀ k < samplePage.page.length,
      searchDerivation sampleAuth samplePage (([1, 0] : List Nat).take k) = none) :=
  ⟨by decide, c1_compose_order_and_join sampleAuth samplePage [1, 0] (by decide)⟩

/-- Claim C2: when `search` is called with a non-null query that differs from the stored
one, `currentPage` is set to 1 and the single fetch issued carries `currentPage = 1`. -/
theorem c2_query_change_resets_page (st : ComponentState) (q : String)
    (h : q ≠ st.currentSearchQuery) :
    (search st (some q)).1.currentPage = 1 ∧
    fetchesOf (search st (some q)).2 =
      [{ query := q.trim, currentPage := 1, elementsPerPage := st.pageSize }] := by
  have hb : (st.currentSearchQuery != q) = true := by
    simp [bne]
    exact fun he => h he.symm
  constructor
  · simp [search, searchTransition, hb]
  · simp [search, searchTransition, queryChanged, hb, fetchesOf, searchGroupsRequest]

/-- Witness for C2: a concrete changed query resets page 7 to 1. -/
theorem c2_query_change_resets_page_witness :
    ("abc" ≠ (({ currentSearchQuery := "", currentPage := 7, pageSize := 5 } :
        ComponentState)).currentSearchQuery) ∧
    ((search { currentSearchQuery := "", currentPage := 7, pageSize := 5 }
        (some "abc")).1.currentPage = 1 ∧
      fetchesOf (search { currentSearchQuery := "", currentPage := 7, pageSize := 5 }
          (some "abc")).2 =
        [{ query := ("abc" : String).trim, currentPage := 1,
            elementsPerPage := (({ currentSearchQuery := "", currentPage := 7, pageSize := 5 } :
              ComponentState)).pageSize }]) :=
  ⟨by decide,
    c2_query_change_resets_page { currentSearchQuery := "", currentPage := 7, pageSize := 5 }
      "abc" (by decide)⟩

/-- Claim C7: `forceUpdateGroup` leaves the state (hence the query) unchanged, emits the
cache invalidation strictly before the fetch for the unchanged query, and running its
effects against any cache state, even one already holding that request, performs exactly
one fresh backend call. -/
theorem c7_force_update_clears_then_fetches (st : ComponentState)
    (cache : List FetchRequest) :
    (forceUpdateGroup st).1 = st ∧
    (forceUpdateGroup st).2 =
      [Effect.clearGroupsRequests, Effect.fetch (searchGroupsRequest st)] ∧
    (runCache cache (forceUpdateGroup st).2).2 = [searchGroupsRequest st] := by
  have hst : searchTransition st (some st.currentSearchQuery) = st := by
    simp [searchTransition]
  have heff : (forceUpdateGroup st).2 =
      [Effect.clearGroupsRequests, Effect.fetch (searchGroupsRequest st)] := by
    simp [forceUpdateGroup, search, hst, queryChanged]
  refine ⟨?_, heff, ?_⟩
  · simp [forceUpdateGroup, search, hst]
  · rw [heff]
    simp [runCache]

/-- Claim C10: when the group's id has no value, `deleteGroup` issues no delete request,
shows no notification, and leaves the component state unchanged. -/
theorem c10_delete_noop_without_id (st : ComponentState) (group : Group)
    (response : Bool × String) (h : group.id = none) :
    deleteGroup st group response = (st, []) := by
  simp [deleteGroup, hasValue, h]

/-- Witness for C10 at a concrete id-less group. -/
theorem c10_delete_noop_without_id_witness :
    (({ id := none, name := "anon", self := "s" } : Group)).id = none ∧
    deleteGroup { currentSearchQuery := "q", currentPage := 2, pageSize := 5 }
        { id := none, name := "anon", self := "s" } (true, "") =
      ({ currentSearchQuery := "q", currentPage := 2, pageSize := 5 }, []) :=
  ⟨rfl,
    c10_delete_noop_without_id { currentSearchQuery := "q", currentPage := 2, pageSize := 5 }
      { id := none, name := "anon", self := "s" } (true, "") rfl⟩

/-- Claim C6: for a group with an id, a failed delete produces exactly the delete request
followed by a failure notification carrying the failure title and the backend error
message verbatim as cause, with the component state unchanged and no cache invalidation;
and a fetch (the `forceUpdateGroup` re-query) occurs if and only if the backend reports
success, with no page or query change and no second delete request (no retry). -/
theorem c6_delete_failure_behavior (st : ComponentState) (group : Group)
    (response : Bool × String) (h : hasValue group.id = true) :
    (response.1 = false →
      deleteGroup st group response =
        (st,
          [Effect.deleteRequest group,
            Effect.notifyError (messagePrefix ++ "notification.deleted.failure.title")
              (messagePrefix ++ "notification.deleted.failure.content") group.name
              response.2])) ∧
    fetchesOf (deleteGroup st group response).2 =
      (if response.1 then [searchGroupsRequest st] else []) ∧
    (Effect.clearGroupsRequests ∈ (deleteGroup st group response).2 ↔ response.1 = true) ∧
    deletesOf (deleteGroup st group response).2 = [group] := by
  have hst : searchTransition st (some st.currentSearchQuery) = st := by
    simp [searchTransition]
  rcases response with ⟨success, msg⟩
  cases success <;>
    simp [deleteGroup, h, forceUpdateGroup, search, hst, queryChanged, fetchesOf, deletesOf]

/-- Witness for C6 at a concrete failed delete. -/
theorem c6_delete_failure_behavior_witness :
    hasValue (({ id := some "gid", name := "staff", self := "s" } : Group)).id = true ∧
    ((((false, "backend down") : Bool × String)).1 = false →
      deleteGroup { currentSearchQuery := "q", currentPage := 2, pageSize := 5 }
          { id := some "gid", name := "staff", self := "s" } (false, "backend down") =
        ({ currentSearchQuery := "q", currentPage := 2, pageSize := 5 },
          [Effect.deleteRequest { id := some "gid", name := "staff", self := "s" },
            Effect.notifyError (messagePrefix ++ "notification.deleted.failure.title")
              (messagePrefix ++ "notification.deleted.failure.content") "staff"
              ((((false, "backend down") : Bool × String)).2)])) ∧
    fetchesOf (deleteGroup { currentSearchQuery := "q", currentPage := 2, pageSize := 5 }
        { id := some "gid", name := "staff", self := "s" } (false, "backend down")).2 =
      (if (((false, "backend down") : Bool × String)).1 then
        [searchGroupsRequest { currentSearchQuery := "q", currentPage := 2, pageSize := 5 }]
      else []) ∧
    (Effect.clearGroupsRequests ∈
        (deleteGroup { currentSearchQuery := "q", currentPage := 2, pageSize := 5 }
          { id := some "gid", name := "staff", self := "s" } (false, "backend down")).2 ↔
      (((false, "backend down") : Bool × String)).1 = true) ∧
    deletesOf (deleteGroup { currentSearchQuery := "q", currentPage := 2, pageSize := 5 }
        { id := some "gid", name := "staff", self := "s" } (false, "backend down")).2 =
      [{ id := some "gid", name := "staff", self := "s" }] :=
  ⟨rfl,
    c6_delete_failure_behavior { currentSearchQuery := "q", currentPage := 2, pageSize := 5 }
      { id := some "gid", name := "staff", self := "s" } (false, "backend down") rfl⟩

theorem searchSubsTracked_init : searchSubsTracked initialWorld := by
  intro p hp
  simp [initialWorld] at hp

theorem searchSubsTracked_searchStep (w : World) (data : Option String)
    (h : searchSubsTracked w) : searchSubsTracked (searchStep w data) := by
  intro p hp hkind
  rcases List.mem_append.mp hp with hmem | hmem
  · exact List.mem_append_left _ (h p hmem hkind)
  · rcases List.mem_cons.mp hmem with hmem | hmem
    · rw [hmem]
      exact List.mem_append_right _ (by simp)
    · rcases List.mem_cons.mp hmem with hmem | hmem
      · rw [hmem]
        exact List.mem_append_right _ (by simp)
      · simp at hmem

theorem searchSubsTracked_recordMutation (w : World) (h : searchSubsTracked w) :
    searchSubsTracked (recordMutation w) := by
  unfold recordMutation
  split
  · exact h
  · exact h

theorem searchSubsTracked_step (w : World) (e : Ev) (h : searchSubsTracked w) :
    searchSubsTracked (step w e) := by
  cases e with
  | searchCall q => exact searchSubsTracked_searchStep w q h
  | deleteCall g =>
    show searchSubsTracked (deleteStep w g)
    unfold deleteStep
    split
    · intro p hp hkind
      rcases List.mem_append.mp hp with hmem | hmem
      · exact h p hmem hkind
      · rcases List.mem_cons.mp hmem with hmem | hmem
        · rw [hmem] at hkind
          simp at hkind
        · simp at hmem
    · exact h
  | destroyCall =>
    intro p hp hkind
    exact h p (List.mem_of_mem_filter hp) hkind
  | deliverCall sid msg =>
    simp only [step, deliverStep]
    cases hfind : w.alive.find? (fun q => q.1 == sid) with
    | none => exact h
    | some pk =>
      rcases pk with ⟨pid, kind⟩
      have hfiltered : searchSubsTracked
          { w with alive := w.alive.filter (fun q => !(q.1 == sid)) } :=
        fun p hp hkind => h p (List.mem_of_mem_filter hp) hkind
      cases kind <;> cases msg <;>
        first
          | exact searchSubsTracked_recordMutation w h
          | exact h
          | · simp only []
              split
              · exact searchSubsTracked_searchStep _ _ hfiltered
              · exact hfiltered

/-- After `cleanupSubscribes`, no fetch or derivation subscription remains alive. -/
theorem destroy_no_search_subs (w : World) (h : searchSubsTracked w) :
    ∀ p ∈ (destroyStep w).alive, p.2 ≠ SubKind.fetchSub ∧ p.2 ≠ SubKind.deriveSub := by
  intro p hp
  simp only [destroyStep] at hp
  have hmem := List.mem_of_mem_filter hp
  have hflt := List.of_mem_filter hp
  simp only [Bool.not_eq_eq_eq_not, Bool.not_true, decide_eq_false_iff_not] at hflt
  constructor
  · intro hk
    exact hflt (h p hmem (Or.inl hk))
  · intro hk
    exact hflt (h p hmem (Or.inr hk))

/-- Delivering a fetch or derivation result when no fetch/derivation subscription is
alive is a complete no-op. -/
theorem deliverStep_no_op (w : World) (sid : Nat) (msg : Msg)
    (hmsg : msg = Msg.fetchResult ∨ msg = Msg.deriveResult)
    (h : ∀ p ∈ w.alive, p.2 ≠ SubKind.fetchSub ∧ p.2 ≠ SubKind.deriveSub) :
    deliverStep w sid msg = w := by
  unfold deliverStep
  cases hfind : w.alive.find? (fun q => q.1 == sid) with
  | none => rfl
  | some pk =>
    have hpk := h pk (List.mem_of_find?_eq_some hfind)
    rcases pk with ⟨pid, kind⟩
    cases kind with
    | fetchSub => exact absurd rfl hpk.1
    | deriveSub => exact absurd rfl hpk.2
    | deleteSub g => rcases hmsg with rfl | rfl <;> rfl

theorem foldl_deliver_no_op (w : World)
    (h : ∀ p ∈ w.alive, p.2 ≠ SubKind.fetchSub ∧ p.2 ≠ SubKind.deriveSub) :
    ∀ deliveries : List (Nat × Msg),
      (∀ d ∈ deliveries, d.2 = Msg.fetchResult ∨ d.2 = Msg.deriveResult) →
      (deliveries.map (fun d => Ev.deliverCall d.1 d.2)).foldl step w = w := by
  intro deliveries
  induction deliveries with
  | nil => intro; rfl
  | cons d rest ih =>
    intro hmsg
    have hstep : step w (Ev.deliverCall d.1 d.2) = w :=
      deliverStep_no_op w d.1 d.2 (hmsg d (List.mem_cons_self d rest)) h
    simp only [List.map_cons, List.foldl_cons, hstep]
    exact ih (fun x hx => hmsg x (List.mem_cons_of_mem d hx))

theorem searchSubsTracked_foldl (events : List Ev) :
    ∀ w : World, searchSubsTracked w → searchSubsTracked (events.foldl step w) := by
  induction events with
  | nil => exact fun w h => h
  | cons e rest ih => exact fun w h => ih (step w e) (searchSubsTracked_step w e h)

/-- Claim C8, refuted: it is not true that every trace consisting of component calls,
then `ngOnDestroy`, then only asynchronous result deliveries, performs no cached-list
mutation after destruction.  The violating trace issues a delete, destroys the view,
and then the delete resolves successfully: its subscription was never registered in
`this.subs`, so its callback still runs `forceUpdateGroup`, whose fetch then mutates
`groups\u0024`/`pageInfoState\u0024` on the destroyed component. -/
theorem c8_counterexample :
    ¬ ∀ (pre : List Ev) (deliveries : List (Nat × Msg)),
        (runTrace (pre ++ [Ev.destroyCall] ++
          deliveries.map (fun d => Ev.deliverCall d.1 d.2))).mutationsAfterDestroy = 0 := by
  intro hall
  have hc := hall [Ev.deleteCall { id := some "g1", name := "n", self := "s" }]
    [(0, Msg.deleteResult true ""), (1, Msg.fetchResult)]
  revert hc
  decide

/-- Claim C8 (amended): teardown releases exactly the subscriptions registered in
`this.subs` — the fetch and derivation subscriptions opened by `search` — so after
`ngOnDestroy` every sequence of pending fetch or derivation results is a complete
no-op on the component; only the unregistered `deleteGroup` subscription escapes this
guarantee. -/
theorem c8_amended_teardown (events : List Ev) (deliveries : List (Nat × Msg))
    (hmsg : ∀ d ∈ deliveries, d.2 = Msg.fetchResult ∨ d.2 = Msg.deriveResult) :
    runTrace (events ++ [Ev.destroyCall] ++
        deliveries.map (fun d => Ev.deliverCall d.1 d.2)) =
      runTrace (events ++ [Ev.destroyCall]) := by
  have hrun : runTrace (events ++ [Ev.destroyCall]) = destroyStep (events.foldl step initialWorld) := by
    simp [runTrace, List.foldl_append, step]
  have hsplit : runTrace (events ++ [Ev.destroyCall] ++
      deliveries.map (fun d => Ev.deliverCall d.1 d.2)) =
      (deliveries.map (fun d => Ev.deliverCall d.1 d.2)).foldl step
        (runTrace (events ++ [Ev.destroyCall])) := by
    simp [runTrace, List.foldl_append]
  rw [hsplit, hrun]
  exact foldl_deliver_no_op _
    (destroy_no_search_subs _ (searchSubsTracked_foldl events initialWorld searchSubsTracked_init))
    deliveries hmsg

/-- Witness for the amended C8 at a concrete trace: one search before destruction, then
its own fetch and derivation results arriving late. -/
theorem c8_amended_teardown_witness :
    (∀ d ∈ [((0 : Nat), Msg.fetchResult), ((1 : Nat), Msg.deriveResult)],
      d.2 = Msg.fetchResult ∨ d.2 = Msg.deriveResult) ∧
    runTrace ([Ev.searchCall (some "x")] ++ [Ev.destroyCall] ++
        ([((0 : Nat), Msg.fetchResult), ((1 : Nat), Msg.deriveResult)]).map
          (fun d => Ev.deliverCall d.1 d.2)) =
      runTrace ([Ev.searchCall (some "x")] ++ [Ev.destroyCall]) :=
  ⟨by decide,
    c8_amended_teardown [Ev.searchCall (some "x")]
      [((0 : Nat), Msg.fetchResult), ((1 : Nat), Msg.deriveResult)] (by decide)⟩

end EduTask
